import Mathlib

/-!
Verification of the SoulSpace real-time audio pipeline.

The development shallowly embeds the audio subsystem of the repository:

* the PCM16 wire codec (`createPCM16Blob` / `decodeAudioData`) — the
  `audioUtils` module itself is not part of the source tree, so these two
  functions are modelled from the specification's description of them;
* the capture pipeline with its recording gate
  (`scriptProcessor.onaudioprocess` and `setIsRecording` in
  `connectLiveSession`);
* the live-session message handler: playback scheduling with
  `nextStartTime`, the active source set, interruption flush, and the
  close/error callbacks (`onmessage`, `onclose`, `onerror`);
* the connect-time control flow (audio-context creation, microphone
  acquisition, channel opening);
* the volume-visualizer feed of `LiveSession.tsx` (strided RMS, gain,
  clamp, multiplicative decay).
-/

/- ### PCM16 codec (section 4.1 / 4.2 of the spec) -/

/-- Modelled from the spec: `audioUtils` (createPCM16Blob's sample
conversion) is not under the source tree.  Per the spec, each sample is
first clamped to the interval `[-1, 1]`. -/
def clampSample (s : ℚ) : ℚ := max (-1) (min 1 s)

/-- Modelled from the spec: truncation toward zero of a rational to an
integer ("truncate to an integer"). -/
def truncToInt (q : ℚ) : ℤ := if 0 ≤ q then Int.floor q else Int.ceil q

/-- Modelled from the spec: clamp to `[-1,1]`, scale to the signed 16-bit
range, truncate to an integer (kept inside the representable int16 range,
as the value is stored in a 16-bit slot). -/
def quantize16 (s : ℚ) : ℤ :=
  max (-32768) (min 32767 (truncToInt (clampSample s * 32768)))

/-- Modelled from the spec: write a signed 16-bit value as two
little-endian bytes (two's complement). -/
def int16ToBytesLE (v : ℤ) : List ℕ :=
  [(v % 65536).toNat % 256, (v % 65536).toNat / 256]

/-- Modelled from the spec: `createPCM16Blob` from the missing
`audioUtils` module — encode a buffer of floating-point samples into
16-bit signed little-endian PCM bytes. -/
def createPCM16Blob : List ℚ → List ℕ
  | [] => []
  | s :: rest => int16ToBytesLE (quantize16 s) ++ createPCM16Blob rest

/-- Modelled from the spec: read two little-endian bytes as a signed
16-bit integer (two's complement). -/
def bytesToInt16LE (b0 b1 : ℕ) : ℤ :=
  if b0 + 256 * b1 < 32768 then (b0 + 256 * b1 : ℤ)
  else (b0 + 256 * b1 : ℤ) - 65536

/-- Modelled from the spec: `decodeAudioData` from the missing
`audioUtils` module — interpret bytes as little-endian signed 16-bit
integers, divide each by 32768; fail (`none`) when the byte length is
odd. -/
def decodeAudioData : List ℕ → Option (List ℚ)
  | [] => some []
  | b0 :: b1 :: rest =>
      (decodeAudioData rest).map (fun t => ((bytesToInt16LE b0 b1 : ℚ) / 32768) :: t)
  | [_] => none

lemma quantize16_le (s : ℚ) : quantize16 s ≤ 32767 := by
  unfold quantize16
  simp only [max_le_iff, min_le_iff]
  omega

lemma neg_le_quantize16 (s : ℚ) : -32768 ≤ quantize16 s := le_max_left _ _

lemma bytesToInt16LE_int16ToBytesLE (v : ℤ) (h1 : -32768 ≤ v) (h2 : v ≤ 32767) :
    bytesToInt16LE ((v % 65536).toNat % 256) ((v % 65536).toNat / 256) = v := by
  unfold bytesToInt16LE
  split <;> omega

lemma decodeAudioData_cons (b0 b1 : ℕ) (l : List ℕ) :
    decodeAudioData (b0 :: b1 :: l) =
      (decodeAudioData l).map (fun t => ((bytesToInt16LE b0 b1 : ℚ) / 32768) :: t) := rfl

lemma decode_createPCM16Blob (samples : List ℚ) :
    decodeAudioData (createPCM16Blob samples) =
      some (samples.map fun s => (quantize16 s : ℚ) / 32768) := by
  induction samples with
  | nil => rfl
  | cons s rest ih =>
      have hb : createPCM16Blob (s :: rest) =
          ((quantize16 s % 65536).toNat % 256) :: ((quantize16 s % 65536).toNat / 256)
            :: createPCM16Blob rest := rfl
      rw [hb, decodeAudioData_cons, ih,
        bytesToInt16LE_int16ToBytesLE _ (neg_le_quantize16 s) (quantize16_le s)]
      rfl

lemma quantize16_close (s : ℚ) (h1 : -1 ≤ s) (h2 : s ≤ 1) :
    |(quantize16 s : ℚ) / 32768 - s| ≤ 1 / 32768 := by
  have hclamp : clampSample s = s := by
    unfold clampSample
    rw [min_eq_right h2, max_eq_right h1]
  rcases le_or_lt 0 s with hs | hs
  · -- nonnegative sample: truncation is the floor
    have hq0 : (0 : ℚ) ≤ s * 32768 := by nlinarith
    have htr : truncToInt (clampSample s * 32768) = Int.floor (s * 32768) := by
      unfold truncToInt
      rw [hclamp, if_pos hq0]
    set t : ℤ := Int.floor (s * 32768) with ht
    have ht0 : (0 : ℤ) ≤ t := Int.floor_nonneg.mpr hq0
    have ht_le : (t : ℚ) ≤ s * 32768 := Int.floor_le _
    have ht_lt : s * 32768 < (t : ℚ) + 1 := Int.lt_floor_add_one _
    rcases le_or_lt t 32767 with hcap | hcap
    · have hqv : quantize16 s = t := by
        unfold quantize16
        rw [htr]
        omega
      rw [hqv, abs_le]
      constructor <;> [linarith; linarith]
    · -- the sample is exactly 1 and the top value is clamped to 32767
      have ht_le32768 : t ≤ 32768 := by
        have : (t : ℚ) ≤ 32768 := by nlinarith
        exact_mod_cast this
      have ht_eq : t = 32768 := by omega
      have hqv : quantize16 s = 32767 := by
        unfold quantize16
        rw [htr]
        omega
      have hs1 : s = 1 := by
        have : (32768 : ℚ) ≤ s * 32768 := by
          have : ((32768 : ℤ) : ℚ) ≤ s * 32768 := by rw [← ht_eq]; exact ht_le
          exact_mod_cast this
        nlinarith
      rw [hqv, hs1, abs_le]
      constructor <;> norm_num
  · -- negative sample: truncation is the ceiling
    have hq0 : ¬ (0 : ℚ) ≤ s * 32768 := by nlinarith
    have htr : truncToInt (clampSample s * 32768) = Int.ceil (s * 32768) := by
      unfold truncToInt
      rw [hclamp, if_neg hq0]
    set t : ℤ := Int.ceil (s * 32768) with ht
    have ht_ge : s * 32768 ≤ (t : ℚ) := Int.le_ceil _
    have ht_lt : (t : ℚ) < s * 32768 + 1 := Int.ceil_lt_add_one _
    have ht_nonpos : t ≤ 0 := by
      rw [ht]
      refine Int.ceil_le.mpr ?_
      push_cast
      nlinarith
    have ht_lo : -32768 ≤ t := by
      have : (-32768 : ℚ) ≤ (t : ℚ) := by nlinarith
      exact_mod_cast this
    have hqv : quantize16 s = t := by
      unfold quantize16
      rw [htr]
      omega
    rw [hqv, abs_le]
    constructor <;> [linarith; linarith]

/- ### Capture pipeline and recording gate (part_001, onaudioprocess / setIsRecording) -/

/-- Events seen by the capture pipeline: the caller flipping the
recording gate (`setIsRecording`) and the script processor delivering a
captured block (`onaudioprocess`). -/
inductive CapEv
  | setRec (b : Bool)
  | block (data : List ℚ)

/-- State of the capture pipeline: the `isRecording` closure variable and
the frames handed to the session channel so far. -/
structure CapState where
  isRecording : Bool
  sent : List (List ℕ)
deriving DecidableEq

/-- One step of the capture pipeline, mirroring the source: the
`onaudioprocess` callback returns immediately when `isRecording` is
false, otherwise encodes the block with `createPCM16Blob` and hands it to
the channel; `setIsRecording` just writes the flag. -/
def capStep (st : CapState) : CapEv → CapState
  | .setRec b => { st with isRecording := b }
  | .block data =>
      if st.isRecording then { st with sent := st.sent ++ [createPCM16Blob data] }
      else st

/-- Run the capture pipeline over a list of events. -/
def capRun (st : CapState) : List CapEv → CapState
  | [] => st
  | e :: rest => capRun (capStep st e) rest

/-- An event that does not open the recording gate. -/
def CapEv.keepsClosed : CapEv → Prop
  | .setRec b => b = false
  | .block _ => True

instance : DecidablePred CapEv.keepsClosed := fun e =>
  match e with
  | .setRec b => inferInstanceAs (Decidable (b = false))
  | .block _ => inferInstanceAs (Decidable True)

lemma capRun_append (st : CapState) (l1 l2 : List CapEv) :
    capRun st (l1 ++ l2) = capRun (capRun st l1) l2 := by
  induction l1 generalizing st with
  | nil => rfl
  | cons e rest ih => simp [capRun, ih]

lemma capRun_closed (st : CapState) (evs : List CapEv)
    (hrec : st.isRecording = false) (hcl : ∀ e ∈ evs, e.keepsClosed) :
    capRun st evs = st := by
  induction evs with
  | nil => rfl
  | cons e rest ih =>
      have he : e.keepsClosed := hcl e (by simp)
      have hstep : capStep st e = st := by
        cases e with
        | setRec b =>
            simp only [CapEv.keepsClosed] at he
            subst he
            simp [capStep, ← hrec]
        | block data => simp [capStep, hrec]
      rw [capRun, hstep]
      exact ih fun e' h => hcl e' (by simp [h])

lemma capRun_open_blocks (st : CapState) (blocks : List (List ℚ))
    (hrec : st.isRecording = true) :
    capRun st (blocks.map CapEv.block) =
      ⟨true, st.sent ++ blocks.map createPCM16Blob⟩ := by
  induction blocks generalizing st with
  | nil => cases st; simp_all [capRun]
  | cons b rest ih =>
      simp only [List.map_cons, capRun, capStep, hrec, if_pos]
      rw [ih _ rfl]
      simp

/- ### Live session channel: scheduler, interruption, close (part_001, onmessage / onclose / onerror) -/

/-- Outcome of the audio part of one inbound server message: no audio
payload, a payload that decodes to a buffer of the given duration, or a
payload on which `decodeAudioData` throws. -/
inductive AudioPart
  | noAudio
  | good (duration : ℚ)
  | bad

/-- Session-side mutable state of `connectLiveSession`: the scheduling
clock `nextStartTime`, the active source set `sources` (identified by
creation ids, in insertion order), the number of `onClose` invocations
made so far, and a fresh-id counter for created buffer sources. -/
structure SessionState where
  nextStartTime : ℚ
  sources : List ℕ
  closeCount : ℕ
  nextId : ℕ
deriving DecidableEq

/-- Initial state of a session: `nextStartTime = 0`, no sources, no close
callback fired. -/
def initSession : SessionState := ⟨0, [], 0, 0⟩

/-- A buffer-source scheduling record: which source was created, at what
time it was told to start, and its duration. -/
structure Scheduled where
  id : ℕ
  start : ℚ
  duration : ℚ
deriving DecidableEq

/-- Result of processing one event: the new state, the scheduling calls
made (`source.start`), and the sources force-stopped by interruption. -/
structure StepOut where
  state : SessionState
  scheduled : List Scheduled
  stopped : List ℕ
deriving DecidableEq

/-- The interruption flush, mirroring the `interrupted` branch of
`onmessage`: every member of the source set is stopped, the set is
cleared, and `nextStartTime` is reset to 0.  Returns the new state and
the list of sources that were stopped. -/
def flushPlayback (st : SessionState) : SessionState × List ℕ :=
  ({ st with nextStartTime := 0, sources := [] }, st.sources)

/-- The `onmessage` handler, mirroring the source line by line: if the
message carries audio, `nextStartTime` is first raised to the output
clock's current time, then the payload is decoded — on success the buffer
is scheduled at exactly `nextStartTime`, `nextStartTime` advances by the
buffer's duration and the source joins the active set; on decode failure
the error is caught and logged.  Afterwards, if the message carries the
`interrupted` flag, the playback flush runs. -/
def onmessage (st : SessionState) (audio : AudioPart) (interrupted : Bool)
    (now : ℚ) : StepOut :=
  let (st1, sch) :=
    match audio with
    | .noAudio => (st, ([] : List Scheduled))
    | .bad => ({ st with nextStartTime := max st.nextStartTime now }, [])
    | .good d =>
        let t0 := max st.nextStartTime now
        ({ st with
            nextStartTime := t0 + d
            sources := st.sources ++ [st.nextId]
            nextId := st.nextId + 1 },
         [⟨st.nextId, t0, d⟩])
  if interrupted then
    let (st2, stopped) := flushPlayback st1
    ⟨st2, sch, stopped⟩
  else
    ⟨st1, sch, []⟩

/-- Channel-level events delivered to the session callbacks: an inbound
server message, the natural end of a scheduled source's playback (the
`ended` listener removes it from the set), and the channel's close and
error events (each of which invokes the caller's `onClose`). -/
inductive ChanEv
  | message (audio : AudioPart) (interrupted : Bool) (now : ℚ)
  | ended (id : ℕ)
  | closeEv
  | errorEv

/-- One step of the session callback dispatch. -/
def sessionStep (st : SessionState) : ChanEv → StepOut
  | .message a i now => onmessage st a i now
  | .ended id => ⟨{ st with sources := st.sources.erase id }, [], []⟩
  | .closeEv => ⟨{ st with closeCount := st.closeCount + 1 }, [], []⟩
  | .errorEv => ⟨{ st with closeCount := st.closeCount + 1 }, [], []⟩

/-- Result of a whole run: final state plus the concatenated logs of
scheduling calls and forced stops. -/
structure RunOut where
  state : SessionState
  log : List Scheduled
  stopped : List ℕ
deriving DecidableEq

/-- Run the session dispatch over a list of events, in order. -/
def sessionRun (st : SessionState) : List ChanEv → RunOut
  | [] => ⟨st, [], []⟩
  | e :: rest =>
      let o := sessionStep st e
      let r := sessionRun o.state rest
      ⟨r.state, o.scheduled ++ r.log, o.stopped ++ r.stopped⟩

/-- An event that carries no interruption signal. -/
def ChanEv.noInterrupt : ChanEv → Prop
  | .message _ i _ => i = false
  | _ => True

/-- An event whose audio payload, if any, has a nonnegative duration. -/
def ChanEv.durOk : ChanEv → Prop
  | .message (.good d) _ _ => 0 ≤ d
  | _ => True

/- ### Connect-time control flow (part_001, connectLiveSession body) -/

/-- Resource-relevant actions of `connectLiveSession`, in program order:
creating an AudioContext, requesting the microphone, acquiring it,
logging a denial, rethrowing the permission error, calling
`ai.live.connect`, and closing an AudioContext. -/
inductive ConnAct
  | createContext
  | micRequest
  | micAcquired
  | micDeniedLog
  | throwPermission
  | openChannel
  | closeContext
deriving DecidableEq

/-- The action trace of `connectLiveSession` up to the point where it
either throws or has called `ai.live.connect`, indexed by whether
`getUserMedia` succeeds.  Mirrors the source order: both audio contexts
are constructed first, then the microphone is requested inside a
try/catch whose catch logs and rethrows. -/
def connectLiveSessionTrace (micOk : Bool) : List ConnAct :=
  [.createContext, .createContext, .micRequest] ++
    (if micOk then [.micAcquired, .openChannel]
     else [.micDeniedLog, .throwPermission])

/-- Number of audio contexts still held (created and not closed) at the
end of a trace. -/
def contextsHeld (tr : List ConnAct) : ℕ :=
  tr.count .createContext - tr.count .closeContext

/-- The connect attempt failed by rethrowing the permission error. -/
def connectFails (tr : List ConnAct) : Prop := ConnAct.throwPermission ∈ tr

/-- The channel was opened, i.e. `ai.live.connect` was called. -/
def channelOpened (tr : List ConnAct) : Prop := ConnAct.openChannel ∈ tr

/-- The microphone stream was acquired and is held. -/
def micHeld (tr : List ConnAct) : Prop := ConnAct.micAcquired ∈ tr

/- ### Volume visualizer feed (LiveSession.tsx) -/

/-- Every 5th element of a buffer, starting at index 0 — the samples the
visualizer's loop `for (i = 0; i < data.length; i += 5)` visits. -/
def strided5 : List ℚ → List ℚ
  | [] => []
  | x :: rest => x :: strided5 (rest.drop 4)
  termination_by l => l.length
  decreasing_by simp [List.length_drop]; omega

/-- Sum of squares accumulated by the visualizer loop. -/
def sumSqStride (data : List ℚ) : ℚ := ((strided5 data).map fun x => x * x).sum

/-- The `targetVolume` computed by the `onAudioBuffer` callback in
`LiveSession.tsx`: `Math.min(Math.sqrt(sum / (data.length / 5)) * 5, 2.0)`
with the source's division by `data.length / 5`. -/
noncomputable def codeTargetVolume (data : List ℚ) : ℝ :=
  min (Real.sqrt ((sumSqStride data : ℝ) / ((data.length : ℝ) / 5)) * 5) 2

/-- The root-mean-square over every 5th sample, following the claim's
wording: mean of the squares of the visited samples. -/
noncomputable def rmsEvery5th (data : List ℚ) : ℝ :=
  Real.sqrt ((sumSqStride data : ℝ) / ((strided5 data).length : ℝ))

/-- The target volume as the claim words it: `min(5 × rms, 2.0)` with
`rms` the root-mean-square over every 5th sample. -/
noncomputable def specTargetVolume (data : List ℚ) : ℝ :=
  min (5 * rmsEvery5th data) 2

/-- One tick of the render loop's decay of `targetVolume`
(`targetVolumeRef.current *= 0.95`). -/
def decayTick (v : ℝ) : ℝ := v * 0.95

lemma strided5_length (l : List ℚ) : (strided5 l).length = (l.length + 4) / 5 := by
  induction l using strided5.induct with
  | case1 => rw [strided5]; rfl
  | case2 x rest ih =>
      rw [strided5]
      simp only [List.length_cons, List.length_drop] at ih ⊢
      omega

lemma decayTick_iterate (n : ℕ) (v : ℝ) : decayTick^[n] v = v * 0.95 ^ n := by
  induction n with
  | zero => simp
  | succ k ih =>
      rw [Function.iterate_succ_apply', ih, decayTick]
      ring

/- ### Scheduler lemmas -/

lemma sessionStep_nextStartTime_mono (st : SessionState) (e : ChanEv)
    (hni : e.noInterrupt) (hd : e.durOk) :
    st.nextStartTime ≤ (sessionStep st e).state.nextStartTime := by
  cases e with
  | message a i now =>
      simp only [ChanEv.noInterrupt] at hni
      subst hni
      cases a with
      | noAudio => simp [sessionStep, onmessage]
      | bad => simp [sessionStep, onmessage, le_max_left]
      | good d =>
          simp only [ChanEv.durOk] at hd
          simp only [sessionStep, onmessage, Bool.false_eq_true, if_false]
          have := le_max_left st.nextStartTime now
          linarith
  | ended id => simp [sessionStep]
  | closeEv => simp [sessionStep]
  | errorEv => simp [sessionStep]

lemma sessionRun_cons (st : SessionState) (e : ChanEv) (rest : List ChanEv) :
    (sessionRun st (e :: rest)).state = (sessionRun (sessionStep st e).state rest).state := rfl

lemma sessionRun_nextStartTime_mono (st : SessionState) (evs : List ChanEv)
    (h : ∀ e ∈ evs, e.noInterrupt ∧ e.durOk) :
    st.nextStartTime ≤ (sessionRun st evs).state.nextStartTime := by
  induction evs generalizing st with
  | nil => exact le_refl _
  | cons e rest ih =>
      rw [sessionRun_cons]
      refine le_trans (sessionStep_nextStartTime_mono st e (h e (by simp)).1 (h e (by simp)).2) ?_
      exact ih _ fun e' he' => h e' (by simp [he'])

/- ### Claim theorems -/

/-- C1: playback scheduling follows the spec's algorithm exactly — on
each inbound decoded buffer the handler schedules the buffer to start at
`max nextStartTime now` and leaves `nextStartTime` advanced by the
buffer's duration; consequently for a buffer A scheduled from any session
state and a buffer B scheduled after any further events containing no
interruption (and whose buffers have nonnegative durations), A's
scheduled end time is at most B's scheduled start time. -/
theorem playback_scheduling_no_overlap :
    (∀ (st : SessionState) (d now : ℚ),
        (onmessage st (.good d) false now).scheduled =
          [⟨st.nextId, max st.nextStartTime now, d⟩] ∧
        (onmessage st (.good d) false now).state.nextStartTime =
          max st.nextStartTime now + d) ∧
    (∀ (st0 : SessionState) (dA nowA dB nowB : ℚ) (mid : List ChanEv),
        0 ≤ dA →
        (∀ e ∈ mid, e.noInterrupt ∧ e.durOk) →
        ∀ eA ∈ (onmessage st0 (.good dA) false nowA).scheduled,
          ∀ eB ∈ (onmessage
              (sessionRun (onmessage st0 (.good dA) false nowA).state mid).state
              (.good dB) false nowB).scheduled,
            eA.start + eA.duration ≤ eB.start) := by
  constructor
  · exact fun st d now => ⟨rfl, rfl⟩
  · intro st0 dA nowA dB nowB mid hdA hmid eA heA eB heB
    have hA : eA = ⟨st0.nextId, max st0.nextStartTime nowA, dA⟩ := by
      simpa [onmessage] using heA
    set stA := (onmessage st0 (.good dA) false nowA).state with hstA
    have hAnext : stA.nextStartTime = max st0.nextStartTime nowA + dA := rfl
    set stM := (sessionRun stA mid).state with hstM
    have hmono : stA.nextStartTime ≤ stM.nextStartTime :=
      sessionRun_nextStartTime_mono stA mid hmid
    have hB : eB = ⟨stM.nextId, max stM.nextStartTime nowB, dB⟩ := by
      simpa [onmessage] using heB
    rw [hA, hB]
    show max st0.nextStartTime nowA + dA ≤ max stM.nextStartTime nowB
    rw [hAnext] at hmono
    have := le_max_left stM.nextStartTime nowB
    linarith

/-- Witness for C1: two buffers of durations 1/2 and 3/10 arriving at
clock times 0 and 1/4 from the initial state with nothing in between are
scheduled at 0 and 1/2 respectively, and 0 + 1/2 ≤ 1/2. -/
theorem playback_scheduling_no_overlap_witness :
    (0 : ℚ) ≤ 1 / 2 ∧
      ((⟨0, 0, 1 / 2⟩ : Scheduled).start + (⟨0, 0, 1 / 2⟩ : Scheduled).duration ≤
        (⟨1, 1 / 2, 3 / 10⟩ : Scheduled).start) := by
  have hm1 : (⟨0, 0, 1 / 2⟩ : Scheduled) ∈
      (onmessage initSession (.good (1 / 2)) false 0).scheduled := by
    norm_num [onmessage, initSession]
  have hm2 : (⟨1, 1 / 2, 3 / 10⟩ : Scheduled) ∈
      (onmessage (sessionRun (onmessage initSession (.good (1 / 2)) false 0).state []).state
        (.good (3 / 10)) false (1 / 4)).scheduled := by
    norm_num [onmessage, initSession, sessionRun]
  exact ⟨by norm_num,
    playback_scheduling_no_overlap.2 initSession (1 / 2) 0 (3 / 10) (1 / 4) []
      (by norm_num) (by simp) _ hm1 _ hm2⟩

/-- C2 counterexample: receiving an interruption with the Active Source
Set already empty is not always a no-op — from a state with an empty set
but `nextStartTime = 5`, the handler still resets `nextStartTime` to 0,
changing the state. -/
theorem interruption_empty_set_not_noop :
    (sessionStep ⟨5, [], 0, 0⟩ (.message .noAudio true 0)).state ≠ ⟨5, [], 0, 0⟩ := by
  decide

/-- C2 (amended): on an interruption signal the handler stops every entry
of the Active Source Set, clears the set, and resets `nextStartTime` to
0; the flush is idempotent in the sense that flushing a just-flushed
state changes nothing and stops no source, and it is a no-op exactly when
the set is already empty and `nextStartTime` is already 0. -/
theorem interruption_flush_spec :
    (∀ (st : SessionState) (now : ℚ),
        (sessionStep st (.message .noAudio true now)).stopped = st.sources ∧
        (sessionStep st (.message .noAudio true now)).state.sources = [] ∧
        (sessionStep st (.message .noAudio true now)).state.nextStartTime = 0) ∧
    (∀ st : SessionState,
        flushPlayback (flushPlayback st).1 = ((flushPlayback st).1, [])) ∧
    (∀ st : SessionState, st.sources = [] → st.nextStartTime = 0 →
        (flushPlayback st).1 = st) := by
  refine ⟨fun st now => ⟨rfl, rfl, rfl⟩, fun st => rfl, fun st h1 h2 => ?_⟩
  cases st
  simp_all [flushPlayback]

/-- Witness for C2 (amended): the initial session state has an empty set
and clock 0, and flushing it changes nothing. -/
theorem interruption_flush_spec_witness :
    (initSession.sources = [] ∧ initSession.nextStartTime = 0) ∧
      (flushPlayback initSession).1 = initSession :=
  ⟨⟨rfl, rfl⟩, interruption_flush_spec.2.2 initSession rfl rfl⟩

/-- C3: evaluating the session callbacks at the failing input — a channel
that emits an error event and then a close event for the same session —
shows the close callback fires twice, because `onerror` and `onclose`
both call `onClose` and no once-guard exists. -/
theorem onClose_fires_twice_on_error_then_close :
    (sessionRun initSession [.errorEv, .closeEv]).state.closeCount = 2 := rfl

/-- C4: a captured block arriving with the RecordingGate false leaves the
pipeline state unchanged (nothing buffered, nothing sent); with the gate
true the block is encoded with `createPCM16Blob` and handed to the
channel; consequently any number of blocks captured with the gate closed
produce zero transmitted frames, and once the gate opens every subsequent
block is transmitted. -/
theorem recording_gate_spec :
    (∀ (st : CapState) (data : List ℚ), st.isRecording = false →
        capStep st (.block data) = st) ∧
    (∀ (st : CapState) (data : List ℚ), st.isRecording = true →
        capStep st (.block data) = ⟨true, st.sent ++ [createPCM16Blob data]⟩) ∧
    (∀ closedBlocks openBlocks : List (List ℚ),
        capRun ⟨false, []⟩
          (closedBlocks.map CapEv.block ++ CapEv.setRec true :: openBlocks.map CapEv.block) =
          ⟨true, openBlocks.map createPCM16Blob⟩) := by
  refine ⟨?_, ?_, ?_⟩
  · intro st data h
    simp [capStep, h]
  · intro st data h
    cases st
    simp_all [capStep]
  · intro closedBlocks openBlocks
    rw [capRun_append]
    rw [capRun_closed ⟨false, []⟩ _ rfl ?hcl]
    case hcl =>
      intro e he
      rcases List.mem_map.mp he with ⟨d, _, rfl⟩
      trivial
    show capRun (capStep ⟨false, []⟩ (.setRec true)) (openBlocks.map CapEv.block) = _
    rw [show capStep ⟨false, []⟩ (CapEv.setRec true) = ⟨true, []⟩ from rfl]
    rw [capRun_open_blocks ⟨true, []⟩ openBlocks rfl]
    simp

/-- Witness for C4: with the gate closed, a concrete captured block
leaves the pipeline state untouched. -/
theorem recording_gate_spec_witness :
    (⟨false, []⟩ : CapState).isRecording = false ∧
      capStep ⟨false, []⟩ (.block [1, 0]) = ⟨false, []⟩ :=
  ⟨rfl, recording_gate_spec.1 ⟨false, []⟩ [1, 0] rfl⟩

/-- C5: round-trip — decoding the encoding of any buffer of samples in
[-1, 1] succeeds, yields a buffer of the same length, and every decoded
sample differs from the corresponding original by at most 1/32768. -/
theorem pcm_roundtrip (samples : List ℚ) (h : ∀ s ∈ samples, -1 ≤ s ∧ s ≤ 1) :
    ∃ out, decodeAudioData (createPCM16Blob samples) = some out ∧
      out.length = samples.length ∧
      List.Forall₂ (fun o s => |o - s| ≤ 1 / 32768) out samples := by
  refine ⟨_, decode_createPCM16Blob samples, by simp, ?_⟩
  induction samples with
  | nil => simp
  | cons s rest ih =>
      simp only [List.map_cons]
      exact List.Forall₂.cons
        (quantize16_close s (h s (by simp)).1 (h s (by simp)).2)
        (ih fun x hx => h x (by simp [hx]))

/-- Witness for C5: the concrete buffer `[1, -1, 1/2, -3/4, 0]` lies in
[-1, 1] samplewise and round-trips within the quantization bound. -/
theorem pcm_roundtrip_witness :
    (∀ s ∈ [(1 : ℚ), -1, 1 / 2, -3 / 4, 0], -1 ≤ s ∧ s ≤ 1) ∧
      ∃ out, decodeAudioData (createPCM16Blob [(1 : ℚ), -1, 1 / 2, -3 / 4, 0]) = some out ∧
        out.length = ([(1 : ℚ), -1, 1 / 2, -3 / 4, 0]).length ∧
        List.Forall₂ (fun o s => |o - s| ≤ 1 / 32768) out [(1 : ℚ), -1, 1 / 2, -3 / 4, 0] :=
  ⟨by norm_num, pcm_roundtrip _ (by norm_num)⟩

/-- C6: when decoding an inbound audio payload fails, the handler
schedules no playback for that buffer, the Active Source Set gains no
entry from it, the close callback is not invoked, and (absent an
interruption flag on the same message) the source set is exactly
unchanged — the session continues. -/
theorem decode_failure_nonfatal (st : SessionState) (i : Bool) (now : ℚ) :
    (sessionStep st (.message .bad i now)).scheduled = [] ∧
    (sessionStep st (.message .bad i now)).state.closeCount = st.closeCount ∧
    (∀ x ∈ (sessionStep st (.message .bad i now)).state.sources, x ∈ st.sources) ∧
    (i = false → (sessionStep st (.message .bad i now)).state.sources = st.sources) := by
  cases i <;> simp [sessionStep, onmessage, flushPlayback]

/-- Witness for C6: a malformed payload arriving without an interruption
flag leaves the initial session's source set unchanged. -/
theorem decode_failure_nonfatal_witness :
    (false : Bool) = false ∧
      (sessionStep initSession (.message .bad false 1)).state.sources = initSession.sources :=
  ⟨rfl, (decode_failure_nonfatal initSession false 1).2.2.2 rfl⟩

/-- C7 counterexample: after a failed microphone acquisition the two
audio contexts created before the acquisition attempt remain held — so
"no session resources remain held after the failed connect" is false. -/
theorem failed_connect_holds_contexts :
    contextsHeld (connectLiveSessionTrace false) ≠ 0 := by decide

/-- C7 (amended): when microphone acquisition fails,
`connectLiveSession` rethrows the permission error, `ai.live.connect` is
never called (no channel is opened) and no microphone stream is held —
but the two audio contexts created before the acquisition remain held,
as nothing closes them on this path. -/
theorem failed_connect_behavior :
    connectFails (connectLiveSessionTrace false) ∧
    ¬ channelOpened (connectLiveSessionTrace false) ∧
    ¬ micHeld (connectLiveSessionTrace false) ∧
    contextsHeld (connectLiveSessionTrace false) = 2 := by
  refine ⟨?_, ?_, ?_, ?_⟩
  · unfold connectFails connectLiveSessionTrace
    decide
  · unfold channelOpened connectLiveSessionTrace
    decide
  · unfold micHeld connectLiveSessionTrace
    decide
  · decide

/-- C8: once `setIsRecording(false)` takes effect, no captured block is
forwarded on the newly-closed gate — any following event sequence that
never re-opens the gate leaves the pipeline state (in particular the
transmitted-frame list) exactly where the closing write left it. -/
theorem no_send_after_gate_closed (st : CapState) (suf : List CapEv)
    (h : ∀ e ∈ suf, e.keepsClosed) :
    capRun (capStep st (.setRec false)) suf = capStep st (.setRec false) :=
  capRun_closed _ suf rfl h

/-- Witness for C8: after closing the gate, a concrete sequence of two
captured blocks and a redundant gate-close transmits nothing. -/
theorem no_send_after_gate_closed_witness :
    (∀ e ∈ [CapEv.block [1 / 2], CapEv.setRec false, CapEv.block []], e.keepsClosed) ∧
      capRun (capStep ⟨true, []⟩ (.setRec false))
          [CapEv.block [1 / 2], CapEv.setRec false, CapEv.block []] =
        capStep ⟨true, []⟩ (.setRec false) :=
  ⟨by decide, no_send_after_gate_closed ⟨true, []⟩ _ (by decide)⟩

lemma sumSqStride_cex : sumSqStride [3 / 10, 0, 0, 0, 0, 3 / 10] = 9 / 50 := by
  rw [sumSqStride]
  rw [show strided5 [3 / 10, 0, 0, 0, 0, 3 / 10] = [3 / 10, 3 / 10] by
    rw [strided5]
    norm_num
    rw [strided5]
    norm_num
    rw [strided5]]
  norm_num

/-- C9 counterexample: on the 6-sample buffer `[3/10, 0, 0, 0, 0, 3/10]`
the code's target volume (which divides the accumulated squares by
`length / 5 = 6/5`) differs from `min(5 × rms, 2)` with `rms` the
root-mean-square over every 5th sample, which divides by the number of
visited samples (2). -/
theorem targetVolume_not_strided_rms :
    codeTargetVolume [3 / 10, 0, 0, 0, 0, 3 / 10] ≠
      specTargetVolume [3 / 10, 0, 0, 0, 0, 3 / 10] := by
  have hlen : (([(3 : ℚ) / 10, 0, 0, 0, 0, 3 / 10] : List ℚ).length : ℝ) = 6 := by
    norm_num
  have hslen : ((strided5 [3 / 10, 0, 0, 0, 0, 3 / 10]).length : ℝ) = 2 := by
    rw [strided5_length]
    norm_num
  have hsq : ((sumSqStride [3 / 10, 0, 0, 0, 0, 3 / 10] : ℚ) : ℝ) = 9 / 50 := by
    rw [sumSqStride_cex]
    norm_num
  have hcode : codeTargetVolume [3 / 10, 0, 0, 0, 0, 3 / 10] = Real.sqrt (3 / 20) * 5 := by
    rw [codeTargetVolume, hsq, hlen]
    rw [show (9 : ℝ) / 50 / (6 / 5) = 3 / 20 by norm_num]
    refine min_eq_left ?_
    have h1 : Real.sqrt (3 / 20) ≤ Real.sqrt ((2 / 5) ^ 2) := by
      apply Real.sqrt_le_sqrt
      norm_num
    rw [Real.sqrt_sq (by norm_num)] at h1
    linarith
  have hspec : specTargetVolume [3 / 10, 0, 0, 0, 0, 3 / 10] = 3 / 2 := by
    rw [specTargetVolume, rmsEvery5th, hsq, hslen]
    rw [show (9 : ℝ) / 50 / 2 = (3 / 10) ^ 2 by norm_num]
    rw [Real.sqrt_sq (by norm_num)]
    rw [min_eq_left (by norm_num)]
    norm_num
  rw [hcode, hspec]
  intro h
  have hroot : Real.sqrt (3 / 20) = 3 / 10 := by linarith
  have hsqr := Real.sq_sqrt (show (0 : ℝ) ≤ 3 / 20 by norm_num)
  rw [hroot] at hsqr
  norm_num at hsqr

/-- C9 (amended): for every nonempty buffer whose length is a multiple
of 5, the code's target volume equals `min(5 × rms, 2)` with `rms` the
root-mean-square over every 5th sample (for other lengths the divisor
`length / 5` differs from the number of visited samples); each render
tick multiplies `targetVolume` by 0.95, which strictly decreases any
positive value, in particular the iterates from 2.0 strictly decrease
and after 50 ticks the value is below 0.2. -/
theorem visualizer_feed_spec :
    (∀ data : List ℚ, data ≠ [] → data.length % 5 = 0 →
        codeTargetVolume data = specTargetVolume data) ∧
    (∀ v : ℝ, 0 < v → decayTick v < v) ∧
    (∀ n : ℕ, decayTick^[n + 1] (2 : ℝ) < decayTick^[n] (2 : ℝ)) ∧
    decayTick^[50] (2 : ℝ) < 0.2 := by
  refine ⟨?_, ?_, ?_, ?_⟩
  · intro data hne hmod
    have hdvd : 5 ∣ data.length := Nat.dvd_of_mod_eq_zero hmod
    have hdiv : ((strided5 data).length : ℝ) = (data.length : ℝ) / 5 := by
      rw [strided5_length]
      rw [show (data.length + 4) / 5 = data.length / 5 by omega]
      rw [Nat.cast_div hdvd (by norm_num)]
      norm_num
    rw [codeTargetVolume, specTargetVolume, rmsEvery5th, hdiv, mul_comm]
  · intro v hv
    rw [decayTick]
    linarith
  · intro n
    rw [decayTick_iterate, decayTick_iterate]
    have hp : (0 : ℝ) < 0.95 ^ n := by positivity
    rw [pow_succ]
    nlinarith
  · rw [decayTick_iterate]
    norm_num

/-- Witness for C9 (amended): on the concrete 5-sample buffer of ones
the two formulations agree, and one decay tick strictly decreases the
concrete positive value 1. -/
theorem visualizer_feed_spec_witness :
    ([(1 : ℚ), 1, 1, 1, 1] ≠ [] ∧
        codeTargetVolume [(1 : ℚ), 1, 1, 1, 1] = specTargetVolume [(1 : ℚ), 1, 1, 1, 1]) ∧
      ((0 : ℝ) < 1 ∧ decayTick 1 < 1) :=
  ⟨⟨by simp, visualizer_feed_spec.1 _ (by simp) (by rfl)⟩,
   ⟨by norm_num, visualizer_feed_spec.2.1 1 (by norm_num)⟩⟩

/-- C10: a single message carrying both an audio payload and the
interrupted flag first schedules its own buffer and then the flush stops
it together with every other active source — the message's source id is
among the stopped ids, and after the step the Active Source Set is empty
and `nextStartTime` is 0, so none of that message's audio survives. -/
theorem interrupt_in_same_message (st : SessionState) (d now : ℚ) :
    (sessionStep st (.message (.good d) true now)).scheduled =
      [⟨st.nextId, max st.nextStartTime now, d⟩] ∧
    st.nextId ∈ (sessionStep st (.message (.good d) true now)).stopped ∧
    (sessionStep st (.message (.good d) true now)).state.sources = [] ∧
    (sessionStep st (.message (.good d) true now)).state.nextStartTime = 0 := by
  refine ⟨rfl, ?_, rfl, rfl⟩
  show st.nextId ∈ st.sources ++ [st.nextId]
  simp
